import Mathlib

/-!
Shallow embedding of the interpreter-dispatch-research repository.

The repository implements a tiny register machine with several
interchangeable dispatch strategies:
  * `src/lib.rs`      : machine word `Bits = u64`, `Outcome`, `Context`
                        (pc + 16 registers) and the shared instruction
                        handlers (`handler::add`, ..., `handler::ret`).
  * `src/switch.rs`   : tag-dispatch engine (enum `Inst` + match loop).
  * `src/closure_loop.rs` : closure-based engine (boxed closures + loop).
  * `src/switch_tail.rs`  : threaded (tail-call) engine over `switch::Inst`.
  * `src/switch_2.rs`, `src/switch_tail_2.rs`, `src/closure_tail_2.rs` :
                        variants that promote register 0 to a threaded
                        function argument.
  * `src/fused/*`     : dynamic instructions with type-erased
                        `Source`/`Sink` operands (`rt.rs`, `rt2.rs`), the
                        specialization ("fuse") passes (`ct2.rs`, `ct3.rs`
                        building on the typed forms of `ct.rs`) and a
                        `Context` that adds 16 globals.

Machine words are modelled as `Nat` with explicit reduction modulo `2^64`
(mirroring Rust's `u64` wrapping arithmetic).  Register and global files
are `List Nat` of length 16; in-range unchecked reads/writes are modelled
by `List.getD`/`List.set`, which agree with the Rust code on every
in-range index.  The unbounded Rust dispatch loops are modelled with
explicit fuel, returning `none` when fuel runs out or the program counter
falls outside the program.
-/

/-- `u64::wrapping_add`: addition modulo `2^64`. -/
def wrapping_add (x y : Nat) : Nat := (x + y) % 2 ^ 64

/-- `u64::wrapping_sub`: subtraction modulo `2^64`. -/
def wrapping_sub (x y : Nat) : Nat := (x + (2 ^ 64 - y % 2 ^ 64)) % 2 ^ 64

/-- `u64::wrapping_mul`: multiplication modulo `2^64`. -/
def wrapping_mul (x y : Nat) : Nat := (x * y) % 2 ^ 64

/-- The outcome of an instruction execution (`Outcome` in `src/lib.rs`). -/
inductive Outcome where
  | Continue : Outcome
  | Return : Outcome
deriving DecidableEq, Repr

/-- Execution context of `src/lib.rs`: a program counter and 16 registers. -/
structure Context where
  pc : Nat
  regs : List Nat
deriving DecidableEq, Repr

/-- `Context::default()`: pc 0, sixteen zeroed registers. -/
def Context.default : Context := { pc := 0, regs := List.replicate 16 0 }

/-- `Context::set_reg`: write a register slot (unchecked in-range write). -/
def Context.set_reg (c : Context) (reg : Nat) (new_value : Nat) : Context :=
  { c with regs := c.regs.set reg new_value }

/-- `Context::get_reg`: read a register slot (unchecked in-range read). -/
def Context.get_reg (c : Context) (reg : Nat) : Nat :=
  c.regs.getD reg 0

/-- `Context::branch_to`: set the pc, outcome `Continue`. -/
def Context.branch_to (c : Context) (new_pc : Nat) : Context × Outcome :=
  ({ c with pc := new_pc }, Outcome.Continue)

/-- `Context::next_inst`: advance the pc, outcome `Continue`. -/
def Context.next_inst (c : Context) : Context × Outcome :=
  ({ c with pc := c.pc + 1 }, Outcome.Continue)

namespace handler

/-- `handler::add` in `src/lib.rs`. -/
def add (c : Context) (result lhs rhs : Nat) : Context × Outcome :=
  let l := c.get_reg lhs
  let r := c.get_reg rhs
  (c.set_reg result (wrapping_add l r)).next_inst

/-- `handler::add_imm` in `src/lib.rs`. -/
def add_imm (c : Context) (result src imm : Nat) : Context × Outcome :=
  let l := c.get_reg src
  (c.set_reg result (wrapping_add l imm)).next_inst

/-- `handler::sub` in `src/lib.rs`. -/
def sub (c : Context) (result lhs rhs : Nat) : Context × Outcome :=
  let l := c.get_reg lhs
  let r := c.get_reg rhs
  (c.set_reg result (wrapping_sub l r)).next_inst

/-- `handler::sub_imm` in `src/lib.rs`. -/
def sub_imm (c : Context) (result src imm : Nat) : Context × Outcome :=
  let l := c.get_reg src
  (c.set_reg result (wrapping_sub l imm)).next_inst

/-- `handler::mul` in `src/lib.rs`. -/
def mul (c : Context) (result lhs rhs : Nat) : Context × Outcome :=
  let l := c.get_reg lhs
  let r := c.get_reg rhs
  (c.set_reg result (wrapping_mul l r)).next_inst

/-- `handler::mul_imm` in `src/lib.rs`. -/
def mul_imm (c : Context) (result src imm : Nat) : Context × Outcome :=
  let l := c.get_reg src
  (c.set_reg result (wrapping_mul l imm)).next_inst

/-- `handler::branch` in `src/lib.rs`. -/
def branch (c : Context) (target : Nat) : Context × Outcome :=
  c.branch_to target

/-- `handler::branch_eqz` in `src/lib.rs`. -/
def branch_eqz (c : Context) (target condition : Nat) : Context × Outcome :=
  if c.get_reg condition = 0 then c.branch_to target else c.next_inst

/-- `handler::ret` in `src/lib.rs`: stores `get_reg result` into register 0
and yields the `Return` outcome. -/
def ret (c : Context) (result : Nat) : Context × Outcome :=
  (c.set_reg 0 (c.get_reg result), Outcome.Return)

end handler

namespace Switch

/-- The tag-dispatch instruction enum of `src/switch.rs`. -/
inductive Inst where
  | Add (result lhs rhs : Nat)
  | AddImm (result src imm : Nat)
  | Sub (result lhs rhs : Nat)
  | SubImm (result src imm : Nat)
  | Mul (result lhs rhs : Nat)
  | MulImm (result src imm : Nat)
  | Branch (target : Nat)
  | BranchEqz (target condition : Nat)
  | Return (result : Nat)
deriving DecidableEq, Repr

/-- `switch::Inst::execute`: dispatch on the tag, run the handler. -/
def Inst.execute : Inst → Context → Context × Outcome
  | Inst.Add result lhs rhs, c => handler.add c result lhs rhs
  | Inst.AddImm result src imm, c => handler.add_imm c result src imm
  | Inst.Sub result lhs rhs, c => handler.sub c result lhs rhs
  | Inst.SubImm result src imm, c => handler.sub_imm c result src imm
  | Inst.Mul result lhs rhs, c => handler.mul c result lhs rhs
  | Inst.MulImm result src imm, c => handler.mul_imm c result src imm
  | Inst.Branch target, c => handler.branch c target
  | Inst.BranchEqz target condition, c => handler.branch_eqz c target condition
  | Inst.Return result, c => handler.ret c result

/-- The driving loop of `src/switch.rs` (`execute`), fuelled.  `none`
means the fuel ran out or the pc fell outside the program. -/
def run (insts : List Inst) : Nat → Context → Option Context
  | 0, _ => none
  | fuel + 1, c =>
    match insts.get? c.pc with
    | none => none
    | some inst =>
      match inst.execute c with
      | (c1, Outcome.Continue) => run insts fuel c1
      | (c1, Outcome.Return) => some c1

end Switch

namespace ClosureLoop

/-- The closure-based instruction of `src/closure_loop.rs`: a boxed
closure from the execution context to an outcome. -/
structure Inst where
  handler : Context → Context × Outcome

/-- `closure_loop::Inst::execute`: invoke the stored closure. -/
def Inst.execute (i : Inst) (c : Context) : Context × Outcome :=
  i.handler c

/-- `closure_loop::Inst::add_imm` constructor. -/
def Inst.add_imm (result src imm : Nat) : Inst :=
  ⟨fun c => handler.add_imm c result src imm⟩

/-- `closure_loop::Inst::sub_imm` constructor. -/
def Inst.sub_imm (result src imm : Nat) : Inst :=
  ⟨fun c => handler.sub_imm c result src imm⟩

/-- `closure_loop::Inst::branch` constructor. -/
def Inst.branch (target : Nat) : Inst :=
  ⟨fun c => handler.branch c target⟩

/-- `closure_loop::Inst::branch_eqz` constructor. -/
def Inst.branch_eqz (target condition : Nat) : Inst :=
  ⟨fun c => handler.branch_eqz c target condition⟩

/-- `closure_loop::Inst::ret` constructor. -/
def Inst.ret (result : Nat) : Inst :=
  ⟨fun c => handler.ret c result⟩

/-- The driving loop of `src/closure_loop.rs` (`execute`), fuelled. -/
def run (insts : List Inst) : Nat → Context → Option Context
  | 0, _ => none
  | fuel + 1, c =>
    match insts.get? c.pc with
    | none => none
    | some inst =>
      match inst.execute c with
      | (c1, Outcome.Continue) => run insts fuel c1
      | (c1, Outcome.Return) => some c1

end ClosureLoop

namespace SwitchTail

/-- The threaded (tail-call) dispatch of `src/switch_tail.rs`:
`Inst::tail_execute` runs the handler for the instruction at the pc and
then directly executes the next instruction; `Return` stops.  The tail
recursion is fuelled. -/
def tail_run (insts : List Switch.Inst) : Nat → Context → Option Context
  | 0, _ => none
  | fuel + 1, c =>
    match insts.get? c.pc with
    | none => none
    | some (Switch.Inst.Return result) => some (handler.ret c result).1
    | some inst => tail_run insts fuel (inst.execute c).1

end SwitchTail

/-- The instruction forms shared by all three engines of claim C1: the
closure engine of `src/closure_loop.rs` provides exactly the
constructors `add_imm`, `sub_imm`, `branch`, `branch_eqz`, `ret`. -/
inductive CommonInst where
  | add_imm (result src imm : Nat)
  | sub_imm (result src imm : Nat)
  | branch (target : Nat)
  | branch_eqz (target condition : Nat)
  | ret (result : Nat)
deriving DecidableEq, Repr

/-- Embed a common instruction into the tag-dispatch enum of `src/switch.rs`. -/
def CommonInst.toSwitch : CommonInst → Switch.Inst
  | CommonInst.add_imm result src imm => Switch.Inst.AddImm result src imm
  | CommonInst.sub_imm result src imm => Switch.Inst.SubImm result src imm
  | CommonInst.branch target => Switch.Inst.Branch target
  | CommonInst.branch_eqz target condition => Switch.Inst.BranchEqz target condition
  | CommonInst.ret result => Switch.Inst.Return result

/-- Embed a common instruction into the closure engine of
`src/closure_loop.rs` via its constructor functions. -/
def CommonInst.toClosure : CommonInst → ClosureLoop.Inst
  | CommonInst.add_imm result src imm => ClosureLoop.Inst.add_imm result src imm
  | CommonInst.sub_imm result src imm => ClosureLoop.Inst.sub_imm result src imm
  | CommonInst.branch target => ClosureLoop.Inst.branch target
  | CommonInst.branch_eqz target condition => ClosureLoop.Inst.branch_eqz target condition
  | CommonInst.ret result => ClosureLoop.Inst.ret result

lemma CommonInst.toClosure_execute (i : CommonInst) (c : Context) :
    (i.toClosure).execute c = (i.toSwitch).execute c := by
  cases i <;> rfl

lemma closure_run_eq_switch_run (prog : List CommonInst) (fuel : Nat) (c : Context) :
    ClosureLoop.run (prog.map CommonInst.toClosure) fuel c
      = Switch.run (prog.map CommonInst.toSwitch) fuel c := by
  induction fuel generalizing c with
  | zero => rfl
  | succ n ih =>
    simp only [ClosureLoop.run, Switch.run, List.get?_map]
    cases hfetch : prog.get? c.pc with
    | none => rfl
    | some i =>
      show (match (i.toClosure).execute c with
            | (c1, Outcome.Continue) => ClosureLoop.run (prog.map CommonInst.toClosure) n c1
            | (c1, Outcome.Return) => some c1)
          = (match (i.toSwitch).execute c with
            | (c1, Outcome.Continue) => Switch.run (prog.map CommonInst.toSwitch) n c1
            | (c1, Outcome.Return) => some c1)
      rw [CommonInst.toClosure_execute]
      cases hex : (i.toSwitch).execute c with
      | mk c1 oc => cases oc <;> simp [ih]

lemma Switch.Inst.execute_continue_of_ne_ret (i : Switch.Inst) (c : Context)
    (h : ∀ r, i ≠ Switch.Inst.Return r) : (i.execute c).2 = Outcome.Continue := by
  cases i with
  | Return r => exact absurd rfl (h r)
  | Add result lhs rhs => rfl
  | AddImm result src imm => rfl
  | Sub result lhs rhs => rfl
  | SubImm result src imm => rfl
  | Mul result lhs rhs => rfl
  | MulImm result src imm => rfl
  | Branch target => rfl
  | BranchEqz target condition =>
    simp only [Switch.Inst.execute, handler.branch_eqz]
    split <;> rfl

lemma tail_run_eq_switch_run (insts : List Switch.Inst) (fuel : Nat) (c : Context) :
    SwitchTail.tail_run insts fuel c = Switch.run insts fuel c := by
  induction fuel generalizing c with
  | zero => rfl
  | succ n ih =>
    simp only [SwitchTail.tail_run, Switch.run]
    cases hfetch : insts.get? c.pc with
    | none => rfl
    | some i =>
      cases i with
      | Return r => rfl
      | Add result lhs rhs => simpa using ih _
      | AddImm result src imm => simpa using ih _
      | Sub result lhs rhs => simpa using ih _
      | SubImm result src imm => simpa using ih _
      | Mul result lhs rhs => simpa using ih _
      | MulImm result src imm => simpa using ih _
      | Branch target => simpa using ih _
      | BranchEqz target condition =>
        simp only [Switch.Inst.execute, handler.branch_eqz]
        split <;> simpa using ih _

namespace Fused

/-- Execution context of `src/fused/mod.rs`: pc, 16 registers and 16
globals. -/
structure Context where
  pc : Nat
  regs : List Nat
  globals : List Nat
deriving DecidableEq, Repr

/-- `fused::Context::default()`: pc 0, zeroed registers and globals. -/
def Context.default : Context :=
  { pc := 0, regs := List.replicate 16 0, globals := List.replicate 16 0 }

/-- `fused::Context::next_inst`. -/
def Context.next_inst (c : Context) : Context × Outcome :=
  ({ c with pc := c.pc + 1 }, Outcome.Continue)

/-- `fused::Context::branch_to`. -/
def Context.branch_to (c : Context) (target : Nat) : Context × Outcome :=
  ({ c with pc := target }, Outcome.Continue)

/-- `fused::Context::set_reg` (the unchecked in-range write). -/
def Context.set_reg (c : Context) (reg : Nat) (new_value : Nat) : Context :=
  { c with regs := c.regs.set reg new_value }

/-- `fused::Context::get_reg` (the unchecked in-range read). -/
def Context.get_reg (c : Context) (reg : Nat) : Nat :=
  c.regs.getD reg 0

/-- `fused::Context::set_global` (the unchecked in-range write). -/
def Context.set_global (c : Context) (global : Nat) (new_value : Nat) : Context :=
  { c with globals := c.globals.set global new_value }

/-- `fused::Context::get_global` (the unchecked in-range read). -/
def Context.get_global (c : Context) (global : Nat) : Nat :=
  c.globals.getD global 0

/-- The condition of the `debug_assert!` guarding `fused::Context::set_reg`:
`reg < self.regs.len()`. -/
def Context.set_reg_assert (c : Context) (reg : Nat) : Bool :=
  decide (reg < c.regs.length)

/-- The condition of the `debug_assert!` guarding `fused::Context::get_reg`:
`reg < self.regs.len()`. -/
def Context.get_reg_assert (c : Context) (reg : Nat) : Bool :=
  decide (reg < c.regs.length)

/-- The condition of the `debug_assert!` guarding `fused::Context::set_global`:
`global < self.globals.len()`. -/
def Context.set_global_assert (c : Context) (global : Nat) : Bool :=
  decide (global < c.globals.length)

/-- The condition of the `debug_assert!` guarding `fused::Context::get_global`,
transcribed exactly from `src/fused/mod.rs` line 62:
`debug_assert!(global > self.globals.len())`. -/
def Context.get_global_assert (c : Context) (global : Nat) : Bool :=
  decide (global > c.globals.length)

end Fused

namespace Rt

/-- `fused::rt::Source`: a type-erased loadable operand. -/
inductive Source where
  | Const (c : Nat)
  | Register (r : Nat)
  | Global (g : Nat)
deriving DecidableEq, Repr

/-- `fused::rt::Source::load`. -/
def Source.load (s : Source) (c : Fused.Context) : Nat :=
  match s with
  | Source.Const constant => constant
  | Source.Register register => c.get_reg register
  | Source.Global global => c.get_global global

/-- `fused::rt::Sink`: a type-erased storable operand. -/
inductive Sink where
  | Register (r : Nat)
  | Global (g : Nat)
deriving DecidableEq, Repr

/-- `fused::rt::Sink::store`. -/
def Sink.store (s : Sink) (c : Fused.Context) (value : Nat) : Fused.Context :=
  match s with
  | Sink.Register register => c.set_reg register value
  | Sink.Global global => c.set_global global value

/-- `fused::rt::AddInst`. -/
structure AddInst where
  result : Sink
  lhs : Source
  rhs : Source
deriving DecidableEq, Repr

/-- `fused::rt::SubInst`. -/
structure SubInst where
  result : Sink
  lhs : Source
  rhs : Source
deriving DecidableEq, Repr

/-- `fused::rt::MulInst`. -/
structure MulInst where
  result : Sink
  lhs : Source
  rhs : Source
deriving DecidableEq, Repr

/-- `fused::rt::EqInst`. -/
structure EqInst where
  result : Sink
  lhs : Source
  rhs : Source
deriving DecidableEq, Repr

/-- `fused::rt::NeInst`. -/
structure NeInst where
  result : Sink
  lhs : Source
  rhs : Source
deriving DecidableEq, Repr

/-- `fused::rt::BranchInst`. -/
structure BranchInst where
  target : Nat
deriving DecidableEq, Repr

/-- `fused::rt::BranchEqzInst`. -/
structure BranchEqzInst where
  target : Nat
  condition : Source
deriving DecidableEq, Repr

/-- `fused::rt::ReturnInst`. -/
structure ReturnInst where
  result : Source
deriving DecidableEq, Repr

/-- `fused::rt::AddInst::execute`. -/
def AddInst.execute (i : AddInst) (c : Fused.Context) : Fused.Context × Outcome :=
  let lhs := i.lhs.load c
  let rhs := i.rhs.load c
  (i.result.store c (wrapping_add lhs rhs)).next_inst

/-- `fused::rt::SubInst::execute`. -/
def SubInst.execute (i : SubInst) (c : Fused.Context) : Fused.Context × Outcome :=
  let lhs := i.lhs.load c
  let rhs := i.rhs.load c
  (i.result.store c (wrapping_sub lhs rhs)).next_inst

/-- `fused::rt::MulInst::execute`. -/
def MulInst.execute (i : MulInst) (c : Fused.Context) : Fused.Context × Outcome :=
  let lhs := i.lhs.load c
  let rhs := i.rhs.load c
  (i.result.store c (wrapping_mul lhs rhs)).next_inst

/-- `fused::rt::EqInst::execute` (comparison result stored as 0/1). -/
def EqInst.execute (i : EqInst) (c : Fused.Context) : Fused.Context × Outcome :=
  let lhs := i.lhs.load c
  let rhs := i.rhs.load c
  (i.result.store c (if lhs = rhs then 1 else 0)).next_inst

/-- `fused::rt::NeInst::execute` (comparison result stored as 0/1). -/
def NeInst.execute (i : NeInst) (c : Fused.Context) : Fused.Context × Outcome :=
  let lhs := i.lhs.load c
  let rhs := i.rhs.load c
  (i.result.store c (if lhs = rhs then 0 else 1)).next_inst

/-- `fused::rt::BranchInst::execute`. -/
def BranchInst.execute (i : BranchInst) (c : Fused.Context) : Fused.Context × Outcome :=
  c.branch_to i.target

/-- `fused::rt::BranchEqzInst::execute`. -/
def BranchEqzInst.execute (i : BranchEqzInst) (c : Fused.Context) : Fused.Context × Outcome :=
  let condition := i.condition.load c
  if condition = 0 then c.branch_to i.target else c.next_inst

/-- `fused::rt::ReturnInst::execute`: register 0 receives the loaded
result, outcome `Return`. -/
def ReturnInst.execute (i : ReturnInst) (c : Fused.Context) : Fused.Context × Outcome :=
  let result := i.result.load c
  (c.set_reg 0 result, Outcome.Return)

/-- `fused::rt::Inst`: the dynamic (type-erased) instruction enum. -/
inductive Inst where
  | Add (i : AddInst)
  | Sub (i : SubInst)
  | Mul (i : MulInst)
  | Eq (i : EqInst)
  | Ne (i : NeInst)
  | Branch (i : BranchInst)
  | BranchEqz (i : BranchEqzInst)
  | Return (i : ReturnInst)
deriving DecidableEq, Repr

/-- `fused::rt::Inst::execute`: dispatch on the dynamic tag. -/
def Inst.execute : Inst → Fused.Context → Fused.Context × Outcome
  | Inst.Add i, c => i.execute c
  | Inst.Sub i, c => i.execute c
  | Inst.Mul i, c => i.execute c
  | Inst.Eq i, c => i.execute c
  | Inst.Ne i, c => i.execute c
  | Inst.Branch i, c => i.execute c
  | Inst.BranchEqz i, c => i.execute c
  | Inst.Return i, c => i.execute c

/-- The driving loop of `src/fused/rt.rs` (`execute`), fuelled. -/
def run (insts : List Inst) : Nat → Fused.Context → Option Fused.Context
  | 0, _ => none
  | fuel + 1, c =>
    match insts.get? c.pc with
    | none => none
    | some inst =>
      match inst.execute c with
      | (c1, Outcome.Continue) => run insts fuel c1
      | (c1, Outcome.Return) => some c1

end Rt

namespace Ct2

/-- `fused::ct2::Inst`: the closed enum of specialized instructions, one
variant per opcode and operand-kind combination (`src/fused/ct2.rs`).
Variant letters: sink kind `R`egister/`G`lobal, then source kinds
`r`egister/`g`lobal/`c`onst.  Each variant is the corresponding
`ct::AddInst<R, P0, P1>`-style typed struct; a `c` payload is the
constant's bits, the others are indices. -/
inductive Inst where
  | AddRrr (result lhs rhs : Nat)
  | AddRrg (result lhs rhs : Nat)
  | AddRrc (result lhs rhs : Nat)
  | AddRgr (result lhs rhs : Nat)
  | AddRgg (result lhs rhs : Nat)
  | AddRgc (result lhs rhs : Nat)
  | AddRcr (result lhs rhs : Nat)
  | AddRcg (result lhs rhs : Nat)
  | AddRcc (result lhs rhs : Nat)
  | AddGrr (result lhs rhs : Nat)
  | AddGrg (result lhs rhs : Nat)
  | AddGrc (result lhs rhs : Nat)
  | AddGgr (result lhs rhs : Nat)
  | AddGgg (result lhs rhs : Nat)
  | AddGgc (result lhs rhs : Nat)
  | AddGcr (result lhs rhs : Nat)
  | AddGcg (result lhs rhs : Nat)
  | AddGcc (result lhs rhs : Nat)
  | SubRrr (result lhs rhs : Nat)
  | SubRrg (result lhs rhs : Nat)
  | SubRrc (result lhs rhs : Nat)
  | SubRgr (result lhs rhs : Nat)
  | SubRgg (result lhs rhs : Nat)
  | SubRgc (result lhs rhs : Nat)
  | SubRcr (result lhs rhs : Nat)
  | SubRcg (result lhs rhs : Nat)
  | SubRcc (result lhs rhs : Nat)
  | SubGrr (result lhs rhs : Nat)
  | SubGrg (result lhs rhs : Nat)
  | SubGrc (result lhs rhs : Nat)
  | SubGgr (result lhs rhs : Nat)
  | SubGgg (result lhs rhs : Nat)
  | SubGgc (result lhs rhs : Nat)
  | SubGcr (result lhs rhs : Nat)
  | SubGcg (result lhs rhs : Nat)
  | SubGcc (result lhs rhs : Nat)
  | Branch (target : Nat)
  | BranchEqzR (target condition : Nat)
  | BranchEqzC (target condition : Nat)
  | BranchEqzG (target condition : Nat)
  | ReturnR (result : Nat)
  | ReturnC (result : Nat)
  | ReturnG (result : Nat)
deriving DecidableEq, Repr

/-- `fused::ct2::Inst::execute`: each specialized variant executes the
typed `ct.rs` semantics of its operand kinds (register loads/stores via
the register file, global loads/stores via the global file, constants
loaded directly). -/
def Inst.execute : Inst → Fused.Context → Fused.Context × Outcome
  | Inst.AddRrr result lhs rhs, c =>
    (c.set_reg result (wrapping_add (c.get_reg lhs) (c.get_reg rhs))).next_inst
  | Inst.AddRrg result lhs rhs, c =>
    (c.set_reg result (wrapping_add (c.get_reg lhs) (c.get_global rhs))).next_inst
  | Inst.AddRrc result lhs rhs, c =>
    (c.set_reg result (wrapping_add (c.get_reg lhs) rhs)).next_inst
  | Inst.AddRgr result lhs rhs, c =>
    (c.set_reg result (wrapping_add (c.get_global lhs) (c.get_reg rhs))).next_inst
  | Inst.AddRgg result lhs rhs, c =>
    (c.set_reg result (wrapping_add (c.get_global lhs) (c.get_global rhs))).next_inst
  | Inst.AddRgc result lhs rhs, c =>
    (c.set_reg result (wrapping_add (c.get_global lhs) rhs)).next_inst
  | Inst.AddRcr result lhs rhs, c =>
    (c.set_reg result (wrapping_add lhs (c.get_reg rhs))).next_inst
  | Inst.AddRcg result lhs rhs, c =>
    (c.set_reg result (wrapping_add lhs (c.get_global rhs))).next_inst
  | Inst.AddRcc result lhs rhs, c =>
    (c.set_reg result (wrapping_add lhs rhs)).next_inst
  | Inst.AddGrr result lhs rhs, c =>
    (c.set_global result (wrapping_add (c.get_reg lhs) (c.get_reg rhs))).next_inst
  | Inst.AddGrg result lhs rhs, c =>
    (c.set_global result (wrapping_add (c.get_reg lhs) (c.get_global rhs))).next_inst
  | Inst.AddGrc result lhs rhs, c =>
    (c.set_global result (wrapping_add (c.get_reg lhs) rhs)).next_inst
  | Inst.AddGgr result lhs rhs, c =>
    (c.set_global result (wrapping_add (c.get_global lhs) (c.get_reg rhs))).next_inst
  | Inst.AddGgg result lhs rhs, c =>
    (c.set_global result (wrapping_add (c.get_global lhs) (c.get_global rhs))).next_inst
  | Inst.AddGgc result lhs rhs, c =>
    (c.set_global result (wrapping_add (c.get_global lhs) rhs)).next_inst
  | Inst.AddGcr result lhs rhs, c =>
    (c.set_global result (wrapping_add lhs (c.get_reg rhs))).next_inst
  | Inst.AddGcg result lhs rhs, c =>
    (c.set_global result (wrapping_add lhs (c.get_global rhs))).next_inst
  | Inst.AddGcc result lhs rhs, c =>
    (c.set_global result (wrapping_add lhs rhs)).next_inst
  | Inst.SubRrr result lhs rhs, c =>
    (c.set_reg result (wrapping_sub (c.get_reg lhs) (c.get_reg rhs))).next_inst
  | Inst.SubRrg result lhs rhs, c =>
    (c.set_reg result (wrapping_sub (c.get_reg lhs) (c.get_global rhs))).next_inst
  | Inst.SubRrc result lhs rhs, c =>
    (c.set_reg result (wrapping_sub (c.get_reg lhs) rhs)).next_inst
  | Inst.SubRgr result lhs rhs, c =>
    (c.set_reg result (wrapping_sub (c.get_global lhs) (c.get_reg rhs))).next_inst
  | Inst.SubRgg result lhs rhs, c =>
    (c.set_reg result (wrapping_sub (c.get_global lhs) (c.get_global rhs))).next_inst
  | Inst.SubRgc result lhs rhs, c =>
    (c.set_reg result (wrapping_sub (c.get_global lhs) rhs)).next_inst
  | Inst.SubRcr result lhs rhs, c =>
    (c.set_reg result (wrapping_sub lhs (c.get_reg rhs))).next_inst
  | Inst.SubRcg result lhs rhs, c =>
    (c.set_reg result (wrapping_sub lhs (c.get_global rhs))).next_inst
  | Inst.SubRcc result lhs rhs, c =>
    (c.set_reg result (wrapping_sub lhs rhs)).next_inst
  | Inst.SubGrr result lhs rhs, c =>
    (c.set_global result (wrapping_sub (c.get_reg lhs) (c.get_reg rhs))).next_inst
  | Inst.SubGrg result lhs rhs, c =>
    (c.set_global result (wrapping_sub (c.get_reg lhs) (c.get_global rhs))).next_inst
  | Inst.SubGrc result lhs rhs, c =>
    (c.set_global result (wrapping_sub (c.get_reg lhs) rhs)).next_inst
  | Inst.SubGgr result lhs rhs, c =>
    (c.set_global result (wrapping_sub (c.get_global lhs) (c.get_reg rhs))).next_inst
  | Inst.SubGgg result lhs rhs, c =>
    (c.set_global result (wrapping_sub (c.get_global lhs) (c.get_global rhs))).next_inst
  | Inst.SubGgc result lhs rhs, c =>
    (c.set_global result (wrapping_sub (c.get_global lhs) rhs)).next_inst
  | Inst.SubGcr result lhs rhs, c =>
    (c.set_global result (wrapping_sub lhs (c.get_reg rhs))).next_inst
  | Inst.SubGcg result lhs rhs, c =>
    (c.set_global result (wrapping_sub lhs (c.get_global rhs))).next_inst
  | Inst.SubGcc result lhs rhs, c =>
    (c.set_global result (wrapping_sub lhs rhs)).next_inst
  | Inst.Branch target, c => c.branch_to target
  | Inst.BranchEqzR target condition, c =>
    if c.get_reg condition = 0 then c.branch_to target else c.next_inst
  | Inst.BranchEqzC target condition, c =>
    if condition = 0 then c.branch_to target else c.next_inst
  | Inst.BranchEqzG target condition, c =>
    if c.get_global condition = 0 then c.branch_to target else c.next_inst
  | Inst.ReturnR result, c => (c.set_reg 0 (c.get_reg result), Outcome.Return)
  | Inst.ReturnC result, c => (c.set_reg 0 result, Outcome.Return)
  | Inst.ReturnG result, c => (c.set_reg 0 (c.get_global result), Outcome.Return)

/-- `fused::ct2::Compile::compile`: select the specialized variant for the
concrete operand kinds of a dynamic instruction.  The source's `match`
over `rt::Inst` has arms only for `Add`, `Sub`, `Branch`, `BranchEqz` and
`Return`; the `Mul`, `Eq` and `Ne` dynamic opcodes have no compile arm
and no specialized variant, modelled as `none`. -/
def compile : Rt.Inst → Option Inst
  | Rt.Inst.Add ⟨Rt.Sink.Register sink, Rt.Source.Register src0, Rt.Source.Register src1⟩ =>
    some (Inst.AddRrr sink src0 src1)
  | Rt.Inst.Add ⟨Rt.Sink.Register sink, Rt.Source.Register src0, Rt.Source.Global src1⟩ =>
    some (Inst.AddRrg sink src0 src1)
  | Rt.Inst.Add ⟨Rt.Sink.Register sink, Rt.Source.Register src0, Rt.Source.Const src1⟩ =>
    some (Inst.AddRrc sink src0 src1)
  | Rt.Inst.Add ⟨Rt.Sink.Register sink, Rt.Source.Global src0, Rt.Source.Register src1⟩ =>
    some (Inst.AddRgr sink src0 src1)
  | Rt.Inst.Add ⟨Rt.Sink.Register sink, Rt.Source.Global src0, Rt.Source.Global src1⟩ =>
    some (Inst.AddRgg sink src0 src1)
  | Rt.Inst.Add ⟨Rt.Sink.Register sink, Rt.Source.Global src0, Rt.Source.Const src1⟩ =>
    some (Inst.AddRgc sink src0 src1)
  | Rt.Inst.Add ⟨Rt.Sink.Register sink, Rt.Source.Const src0, Rt.Source.Register src1⟩ =>
    some (Inst.AddRcr sink src0 src1)
  | Rt.Inst.Add ⟨Rt.Sink.Register sink, Rt.Source.Const src0, Rt.Source.Global src1⟩ =>
    some (Inst.AddRcg sink src0 src1)
  | Rt.Inst.Add ⟨Rt.Sink.Register sink, Rt.Source.Const src0, Rt.Source.Const src1⟩ =>
    some (Inst.AddRcc sink src0 src1)
  | Rt.Inst.Add ⟨Rt.Sink.Global sink, Rt.Source.Register src0, Rt.Source.Register src1⟩ =>
    some (Inst.AddGrr sink src0 src1)
  | Rt.Inst.Add ⟨Rt.Sink.Global sink, Rt.Source.Register src0, Rt.Source.Global src1⟩ =>
    some (Inst.AddGrg sink src0 src1)
  | Rt.Inst.Add ⟨Rt.Sink.Global sink, Rt.Source.Register src0, Rt.Source.Const src1⟩ =>
    some (Inst.AddGrc sink src0 src1)
  | Rt.Inst.Add ⟨Rt.Sink.Global sink, Rt.Source.Global src0, Rt.Source.Register src1⟩ =>
    some (Inst.AddGgr sink src0 src1)
  | Rt.Inst.Add ⟨Rt.Sink.Global sink, Rt.Source.Global src0, Rt.Source.Global src1⟩ =>
    some (Inst.AddGgg sink src0 src1)
  | Rt.Inst.Add ⟨Rt.Sink.Global sink, Rt.Source.Global src0, Rt.Source.Const src1⟩ =>
    some (Inst.AddGgc sink src0 src1)
  | Rt.Inst.Add ⟨Rt.Sink.Global sink, Rt.Source.Const src0, Rt.Source.Register src1⟩ =>
    some (Inst.AddGcr sink src0 src1)
  | Rt.Inst.Add ⟨Rt.Sink.Global sink, Rt.Source.Const src0, Rt.Source.Global src1⟩ =>
    some (Inst.AddGcg sink src0 src1)
  | Rt.Inst.Add ⟨Rt.Sink.Global sink, Rt.Source.Const src0, Rt.Source.Const src1⟩ =>
    some (Inst.AddGcc sink src0 src1)
  | Rt.Inst.Sub ⟨Rt.Sink.Register sink, Rt.Source.Register src0, Rt.Source.Register src1⟩ =>
    some (Inst.SubRrr sink src0 src1)
  | Rt.Inst.Sub ⟨Rt.Sink.Register sink, Rt.Source.Register src0, Rt.Source.Global src1⟩ =>
    some (Inst.SubRrg sink src0 src1)
  | Rt.Inst.Sub ⟨Rt.Sink.Register sink, Rt.Source.Register src0, Rt.Source.Const src1⟩ =>
    some (Inst.SubRrc sink src0 src1)
  | Rt.Inst.Sub ⟨Rt.Sink.Register sink, Rt.Source.Global src0, Rt.Source.Register src1⟩ =>
    some (Inst.SubRgr sink src0 src1)
  | Rt.Inst.Sub ⟨Rt.Sink.Register sink, Rt.Source.Global src0, Rt.Source.Global src1⟩ =>
    some (Inst.SubRgg sink src0 src1)
  | Rt.Inst.Sub ⟨Rt.Sink.Register sink, Rt.Source.Global src0, Rt.Source.Const src1⟩ =>
    some (Inst.SubRgc sink src0 src1)
  | Rt.Inst.Sub ⟨Rt.Sink.Register sink, Rt.Source.Const src0, Rt.Source.Register src1⟩ =>
    some (Inst.SubRcr sink src0 src1)
  | Rt.Inst.Sub ⟨Rt.Sink.Register sink, Rt.Source.Const src0, Rt.Source.Global src1⟩ =>
    some (Inst.SubRcg sink src0 src1)
  | Rt.Inst.Sub ⟨Rt.Sink.Register sink, Rt.Source.Const src0, Rt.Source.Const src1⟩ =>
    some (Inst.SubRcc sink src0 src1)
  | Rt.Inst.Sub ⟨Rt.Sink.Global sink, Rt.Source.Register src0, Rt.Source.Register src1⟩ =>
    some (Inst.SubGrr sink src0 src1)
  | Rt.Inst.Sub ⟨Rt.Sink.Global sink, Rt.Source.Register src0, Rt.Source.Global src1⟩ =>
    some (Inst.SubGrg sink src0 src1)
  | Rt.Inst.Sub ⟨Rt.Sink.Global sink, Rt.Source.Register src0, Rt.Source.Const src1⟩ =>
    some (Inst.SubGrc sink src0 src1)
  | Rt.Inst.Sub ⟨Rt.Sink.Global sink, Rt.Source.Global src0, Rt.Source.Register src1⟩ =>
    some (Inst.SubGgr sink src0 src1)
  | Rt.Inst.Sub ⟨Rt.Sink.Global sink, Rt.Source.Global src0, Rt.Source.Global src1⟩ =>
    some (Inst.SubGgg sink src0 src1)
  | Rt.Inst.Sub ⟨Rt.Sink.Global sink, Rt.Source.Global src0, Rt.Source.Const src1⟩ =>
    some (Inst.SubGgc sink src0 src1)
  | Rt.Inst.Sub ⟨Rt.Sink.Global sink, Rt.Source.Const src0, Rt.Source.Register src1⟩ =>
    some (Inst.SubGcr sink src0 src1)
  | Rt.Inst.Sub ⟨Rt.Sink.Global sink, Rt.Source.Const src0, Rt.Source.Global src1⟩ =>
    some (Inst.SubGcg sink src0 src1)
  | Rt.Inst.Sub ⟨Rt.Sink.Global sink, Rt.Source.Const src0, Rt.Source.Const src1⟩ =>
    some (Inst.SubGcc sink src0 src1)
  | Rt.Inst.Branch ⟨target⟩ => some (Inst.Branch target)
  | Rt.Inst.BranchEqz ⟨target, Rt.Source.Const condition⟩ =>
    some (Inst.BranchEqzC target condition)
  | Rt.Inst.BranchEqz ⟨target, Rt.Source.Register condition⟩ =>
    some (Inst.BranchEqzR target condition)
  | Rt.Inst.BranchEqz ⟨target, Rt.Source.Global condition⟩ =>
    some (Inst.BranchEqzG target condition)
  | Rt.Inst.Return ⟨Rt.Source.Const result⟩ => some (Inst.ReturnC result)
  | Rt.Inst.Return ⟨Rt.Source.Register result⟩ => some (Inst.ReturnR result)
  | Rt.Inst.Return ⟨Rt.Source.Global result⟩ => some (Inst.ReturnG result)
  | Rt.Inst.Mul _ => none
  | Rt.Inst.Eq _ => none
  | Rt.Inst.Ne _ => none

/-- Whole-program specialization: compile every instruction, failing if
any instruction has no specialized counterpart. -/
def compile_program : List Rt.Inst → Option (List Inst)
  | [] => some []
  | d :: rest =>
    match compile d, compile_program rest with
    | some s, some srest => some (s :: srest)
    | _, _ => none

/-- The driving loop of `src/fused/ct2.rs` (`execute`), fuelled. -/
def run (insts : List Inst) : Nat → Fused.Context → Option Fused.Context
  | 0, _ => none
  | fuel + 1, c =>
    match insts.get? c.pc with
    | none => none
    | some inst =>
      match inst.execute c with
      | (c1, Outcome.Continue) => run insts fuel c1
      | (c1, Outcome.Return) => some c1

end Ct2

lemma Ct2.compile_execute (d : Rt.Inst) (s : Ct2.Inst) (h : Ct2.compile d = some s)
    (c : Fused.Context) : s.execute c = d.execute c := by
  cases d with
  | Add i =>
    obtain ⟨res, l, r⟩ := i
    cases res <;> cases l <;> cases r <;>
      (simp only [Ct2.compile, Option.some.injEq] at h; subst h; rfl)
  | Sub i =>
    obtain ⟨res, l, r⟩ := i
    cases res <;> cases l <;> cases r <;>
      (simp only [Ct2.compile, Option.some.injEq] at h; subst h; rfl)
  | Mul i => simp only [Ct2.compile] at h; exact Option.noConfusion h
  | Eq i => simp only [Ct2.compile] at h; exact Option.noConfusion h
  | Ne i => simp only [Ct2.compile] at h; exact Option.noConfusion h
  | Branch i =>
    obtain ⟨t⟩ := i
    simp only [Ct2.compile, Option.some.injEq] at h
    subst h; rfl
  | BranchEqz i =>
    obtain ⟨t, cond⟩ := i
    cases cond <;> (simp only [Ct2.compile, Option.some.injEq] at h; subst h; rfl)
  | Return i =>
    obtain ⟨res⟩ := i
    cases res <;> (simp only [Ct2.compile, Option.some.injEq] at h; subst h; rfl)

lemma Ct2.compile_program_get (P : List Rt.Inst) (SP : List Ct2.Inst)
    (h : Ct2.compile_program P = some SP) (n : Nat) :
    match P.get? n with
    | none => SP.get? n = none
    | some d => ∃ s, Ct2.compile d = some s ∧ SP.get? n = some s := by
  induction P generalizing SP n with
  | nil =>
    simp only [Ct2.compile_program, Option.some.injEq] at h
    subst h
    cases n <;> simp
  | cons d rest ih =>
    simp only [Ct2.compile_program] at h
    cases hc : Ct2.compile d with
    | none => rw [hc] at h; exact absurd h (by simp)
    | some s =>
      rw [hc] at h
      cases hr : Ct2.compile_program rest with
      | none => rw [hr] at h; exact absurd h (by simp)
      | some srest =>
        rw [hr] at h
        simp only [Option.some.injEq] at h
        subst h
        cases n with
        | zero => exact ⟨s, hc, rfl⟩
        | succ m => simpa using ih srest hr m

lemma Ct2.run_eq_rt_run (P : List Rt.Inst) (SP : List Ct2.Inst)
    (h : Ct2.compile_program P = some SP) (fuel : Nat) (c : Fused.Context) :
    Ct2.run SP fuel c = Rt.run P fuel c := by
  induction fuel generalizing c with
  | zero => rfl
  | succ n ih =>
    simp only [Ct2.run, Rt.run]
    have hfetch := Ct2.compile_program_get P SP h c.pc
    cases hP : P.get? c.pc with
    | none => rw [hP] at hfetch; rw [hfetch]
    | some d =>
      rw [hP] at hfetch
      obtain ⟨s, hc, hSP⟩ := hfetch
      rw [hSP]
      show (match s.execute c with
            | (c1, Outcome.Continue) => Ct2.run SP n c1
            | (c1, Outcome.Return) => some c1)
          = (match d.execute c with
            | (c1, Outcome.Continue) => Rt.run P n c1
            | (c1, Outcome.Return) => some c1)
      rw [Ct2.compile_execute d s hc c]
      cases hex : d.execute c with
      | mk c1 oc => cases oc <;> simp [ih]

namespace Rt2

/-- `fused::rt2::Source`: type-erased operand without globals. -/
inductive Source where
  | Const (c : Nat)
  | Register (r : Nat)
deriving DecidableEq, Repr

/-- `fused::rt2::Source::load`. -/
def Source.load (s : Source) (c : Fused.Context) : Nat :=
  match s with
  | Source.Const constant => constant
  | Source.Register register => c.get_reg register

/-- `fused::rt2::AddInst` (result is always a register). -/
structure AddInst where
  result : Nat
  lhs : Source
  rhs : Source
deriving DecidableEq, Repr

/-- `fused::rt2::SubInst`. -/
structure SubInst where
  result : Nat
  lhs : Source
  rhs : Source
deriving DecidableEq, Repr

/-- `fused::rt2::MulInst`. -/
structure MulInst where
  result : Nat
  lhs : Source
  rhs : Source
deriving DecidableEq, Repr

/-- `fused::rt2::EqInst`. -/
structure EqInst where
  result : Nat
  lhs : Source
  rhs : Source
deriving DecidableEq, Repr

/-- `fused::rt2::NeInst`. -/
structure NeInst where
  result : Nat
  lhs : Source
  rhs : Source
deriving DecidableEq, Repr

/-- `fused::rt2::BranchInst`. -/
structure BranchInst where
  target : Nat
deriving DecidableEq, Repr

/-- `fused::rt2::BranchEqzInst`. -/
structure BranchEqzInst where
  target : Nat
  condition : Source
deriving DecidableEq, Repr

/-- `fused::rt2::ReturnInst`. -/
structure ReturnInst where
  result : Source
deriving DecidableEq, Repr

/-- `fused::rt2::Inst`: the dynamic instruction enum of `rt2.rs`. -/
inductive Inst where
  | Add (i : AddInst)
  | Sub (i : SubInst)
  | Mul (i : MulInst)
  | Eq (i : EqInst)
  | Ne (i : NeInst)
  | Branch (i : BranchInst)
  | BranchEqz (i : BranchEqzInst)
  | Return (i : ReturnInst)
deriving DecidableEq, Repr

/-- `fused::rt2::Inst::execute`. -/
def Inst.execute : Inst → Fused.Context → Fused.Context × Outcome
  | Inst.Add i, c =>
    (c.set_reg i.result (wrapping_add (i.lhs.load c) (i.rhs.load c))).next_inst
  | Inst.Sub i, c =>
    (c.set_reg i.result (wrapping_sub (i.lhs.load c) (i.rhs.load c))).next_inst
  | Inst.Mul i, c =>
    (c.set_reg i.result (wrapping_mul (i.lhs.load c) (i.rhs.load c))).next_inst
  | Inst.Eq i, c =>
    (c.set_reg i.result (if i.lhs.load c = i.rhs.load c then 1 else 0)).next_inst
  | Inst.Ne i, c =>
    (c.set_reg i.result (if i.lhs.load c = i.rhs.load c then 0 else 1)).next_inst
  | Inst.Branch i, c => c.branch_to i.target
  | Inst.BranchEqz i, c =>
    if i.condition.load c = 0 then c.branch_to i.target else c.next_inst
  | Inst.Return i, c => (c.set_reg 0 (i.result.load c), Outcome.Return)

end Rt2

namespace Ct3

/-- `fused::ct3::Inst`: the specialized enum over register/constant
operand kinds only (`src/fused/ct3.rs`). -/
inductive Inst where
  | AddRr (result lhs rhs : Nat)
  | AddRc (result lhs rhs : Nat)
  | AddCr (result lhs rhs : Nat)
  | AddCc (result lhs rhs : Nat)
  | SubRr (result lhs rhs : Nat)
  | SubRc (result lhs rhs : Nat)
  | SubCr (result lhs rhs : Nat)
  | SubCc (result lhs rhs : Nat)
  | Branch (target : Nat)
  | BranchEqzR (target condition : Nat)
  | BranchEqzC (target condition : Nat)
  | ReturnR (result : Nat)
  | ReturnC (result : Nat)
deriving DecidableEq, Repr

/-- `fused::ct3::Inst::execute` via the typed `ct.rs` semantics. -/
def Inst.execute : Inst → Fused.Context → Fused.Context × Outcome
  | Inst.AddRr result lhs rhs, c =>
    (c.set_reg result (wrapping_add (c.get_reg lhs) (c.get_reg rhs))).next_inst
  | Inst.AddRc result lhs rhs, c =>
    (c.set_reg result (wrapping_add (c.get_reg lhs) rhs)).next_inst
  | Inst.AddCr result lhs rhs, c =>
    (c.set_reg result (wrapping_add lhs (c.get_reg rhs))).next_inst
  | Inst.AddCc result lhs rhs, c =>
    (c.set_reg result (wrapping_add lhs rhs)).next_inst
  | Inst.SubRr result lhs rhs, c =>
    (c.set_reg result (wrapping_sub (c.get_reg lhs) (c.get_reg rhs))).next_inst
  | Inst.SubRc result lhs rhs, c =>
    (c.set_reg result (wrapping_sub (c.get_reg lhs) rhs)).next_inst
  | Inst.SubCr result lhs rhs, c =>
    (c.set_reg result (wrapping_sub lhs (c.get_reg rhs))).next_inst
  | Inst.SubCc result lhs rhs, c =>
    (c.set_reg result (wrapping_sub lhs rhs)).next_inst
  | Inst.Branch target, c => c.branch_to target
  | Inst.BranchEqzR target condition, c =>
    if c.get_reg condition = 0 then c.branch_to target else c.next_inst
  | Inst.BranchEqzC target condition, c =>
    if condition = 0 then c.branch_to target else c.next_inst
  | Inst.ReturnR result, c => (c.set_reg 0 (c.get_reg result), Outcome.Return)
  | Inst.ReturnC result, c => (c.set_reg 0 result, Outcome.Return)

/-- `fused::ct3::Compile::compile`: the source's outer `match` on
`rt2::Inst` has arms for `Add`, `Sub`, `Branch`, `BranchEqz` and
`Return`, and a wildcard arm reading `_ => todo!()` that panics; the
wildcard (reached by `Mul`, `Eq` and `Ne`) is modelled as `none`. -/
def compile : Rt2.Inst → Option Inst
  | Rt2.Inst.Add ⟨result, Rt2.Source.Const src0, Rt2.Source.Const src1⟩ =>
    some (Inst.AddCc result src0 src1)
  | Rt2.Inst.Add ⟨result, Rt2.Source.Const src0, Rt2.Source.Register src1⟩ =>
    some (Inst.AddCr result src0 src1)
  | Rt2.Inst.Add ⟨result, Rt2.Source.Register src0, Rt2.Source.Const src1⟩ =>
    some (Inst.AddRc result src0 src1)
  | Rt2.Inst.Add ⟨result, Rt2.Source.Register src0, Rt2.Source.Register src1⟩ =>
    some (Inst.AddRr result src0 src1)
  | Rt2.Inst.Sub ⟨result, Rt2.Source.Const src0, Rt2.Source.Const src1⟩ =>
    some (Inst.SubCc result src0 src1)
  | Rt2.Inst.Sub ⟨result, Rt2.Source.Const src0, Rt2.Source.Register src1⟩ =>
    some (Inst.SubCr result src0 src1)
  | Rt2.Inst.Sub ⟨result, Rt2.Source.Register src0, Rt2.Source.Const src1⟩ =>
    some (Inst.SubRc result src0 src1)
  | Rt2.Inst.Sub ⟨result, Rt2.Source.Register src0, Rt2.Source.Register src1⟩ =>
    some (Inst.SubRr result src0 src1)
  | Rt2.Inst.Branch ⟨target⟩ => some (Inst.Branch target)
  | Rt2.Inst.BranchEqz ⟨target, Rt2.Source.Const condition⟩ =>
    some (Inst.BranchEqzC target condition)
  | Rt2.Inst.BranchEqz ⟨target, Rt2.Source.Register condition⟩ =>
    some (Inst.BranchEqzR target condition)
  | Rt2.Inst.Return ⟨Rt2.Source.Const result⟩ => some (Inst.ReturnC result)
  | Rt2.Inst.Return ⟨Rt2.Source.Register result⟩ => some (Inst.ReturnR result)
  | Rt2.Inst.Mul _ => none
  | Rt2.Inst.Eq _ => none
  | Rt2.Inst.Ne _ => none

end Ct3

/-- The dynamic opcodes for which the `ct2.rs` specializer has compile
arms (`Add`, `Sub`, `Branch`, `BranchEqz`, `Return`). -/
def Rt.Inst.handled : Rt.Inst → Bool
  | Rt.Inst.Add _ => true
  | Rt.Inst.Sub _ => true
  | Rt.Inst.Branch _ => true
  | Rt.Inst.BranchEqz _ => true
  | Rt.Inst.Return _ => true
  | Rt.Inst.Mul _ => false
  | Rt.Inst.Eq _ => false
  | Rt.Inst.Ne _ => false

/-- The dynamic opcodes for which the `ct3.rs` specializer has explicit
compile arms (all others fall into its `_ => todo!()` wildcard). -/
def Rt2.Inst.handled : Rt2.Inst → Bool
  | Rt2.Inst.Add _ => true
  | Rt2.Inst.Sub _ => true
  | Rt2.Inst.Branch _ => true
  | Rt2.Inst.BranchEqz _ => true
  | Rt2.Inst.Return _ => true
  | Rt2.Inst.Mul _ => false
  | Rt2.Inst.Eq _ => false
  | Rt2.Inst.Ne _ => false

namespace Switch2

/-- The instruction enum of `src/switch_2.rs`: the `switch.rs` forms plus
the promoted forms `AddImm0`, `SubImm0`, `BranchEqz0` that operate on
register 0 threaded through the loop as a separate mutable value. -/
inductive Inst where
  | Add (result lhs rhs : Nat)
  | AddImm (result src imm : Nat)
  | AddImm0 (imm : Nat)
  | Sub (result lhs rhs : Nat)
  | SubImm (result src imm : Nat)
  | SubImm0 (imm : Nat)
  | Mul (result lhs rhs : Nat)
  | MulImm (result src imm : Nat)
  | Branch (target : Nat)
  | BranchEqz (target condition : Nat)
  | BranchEqz0 (target : Nat)
  | Return (result : Nat)
deriving DecidableEq, Repr

/-- `switch_2::Inst::execute`: takes and returns the threaded register-0
value alongside the context.  Non-promoted variants run the shared
handlers and leave the threaded value alone; promoted variants update
only the threaded value and the pc; `Return` runs `handler::ret`, which
reads the register array. -/
def Inst.execute : Inst → Context → Nat → Context × Nat × Outcome
  | Inst.Add result lhs rhs, c, reg0 =>
    let r := handler.add c result lhs rhs
    (r.1, reg0, r.2)
  | Inst.AddImm result src imm, c, reg0 =>
    let r := handler.add_imm c result src imm
    (r.1, reg0, r.2)
  | Inst.AddImm0 imm, c, reg0 =>
    let r := c.next_inst
    (r.1, wrapping_add reg0 imm, r.2)
  | Inst.Sub result lhs rhs, c, reg0 =>
    let r := handler.sub c result lhs rhs
    (r.1, reg0, r.2)
  | Inst.SubImm result src imm, c, reg0 =>
    let r := handler.sub_imm c result src imm
    (r.1, reg0, r.2)
  | Inst.SubImm0 imm, c, reg0 =>
    let r := c.next_inst
    (r.1, wrapping_sub reg0 imm, r.2)
  | Inst.Mul result lhs rhs, c, reg0 =>
    let r := handler.mul c result lhs rhs
    (r.1, reg0, r.2)
  | Inst.MulImm result src imm, c, reg0 =>
    let r := handler.mul_imm c result src imm
    (r.1, reg0, r.2)
  | Inst.Branch target, c, reg0 =>
    let r := handler.branch c target
    (r.1, reg0, r.2)
  | Inst.BranchEqz target condition, c, reg0 =>
    let r := handler.branch_eqz c target condition
    (r.1, reg0, r.2)
  | Inst.BranchEqz0 target, c, reg0 =>
    if reg0 = 0 then
      let r := c.branch_to target
      (r.1, reg0, r.2)
    else
      let r := c.next_inst
      (r.1, reg0, r.2)
  | Inst.Return result, c, reg0 =>
    let r := handler.ret c result
    (r.1, reg0, r.2)

/-- The driving loop of `src/switch_2.rs` (`execute`), threading the
register-0 value; the loop starts it at 0 and drops it on return. -/
def run (insts : List Inst) : Nat → Context → Nat → Option Context
  | 0, _, _ => none
  | fuel + 1, c, reg0 =>
    match insts.get? c.pc with
    | none => none
    | some inst =>
      match inst.execute c reg0 with
      | (c1, r1, Outcome.Continue) => run insts fuel c1 r1
      | (c1, _, Outcome.Return) => some c1

end Switch2

namespace SwitchTail2

/-- The instruction enum of `src/switch_tail_2.rs`. -/
inductive Inst where
  | AddImm (result src imm : Nat)
  | AddImm0 (imm : Nat)
  | SubImm (result src imm : Nat)
  | SubImm0 (imm : Nat)
  | Branch (target : Nat)
  | BranchEqz (target condition : Nat)
  | BranchEqz0 (target : Nat)
  | Return (result : Nat)
deriving DecidableEq, Repr

/-- The threaded dispatch of `src/switch_tail_2.rs`
(`Inst::tail_execute_2` / `ExecContext::tail_execute_next_2`), fuelled:
register 0 is passed as an explicit argument along the tail-call chain;
`Return` runs `handler::ret`, which reads the register array. -/
def tail_run (insts : List Inst) : Nat → Context → Nat → Option Context
  | 0, _, _ => none
  | fuel + 1, c, reg0 =>
    match insts.get? c.pc with
    | none => none
    | some (Inst.AddImm result src imm) =>
      tail_run insts fuel (handler.add_imm c result src imm).1 reg0
    | some (Inst.AddImm0 imm) =>
      tail_run insts fuel { c with pc := c.pc + 1 } (wrapping_add reg0 imm)
    | some (Inst.SubImm result src imm) =>
      tail_run insts fuel (handler.sub_imm c result src imm).1 reg0
    | some (Inst.SubImm0 imm) =>
      tail_run insts fuel { c with pc := c.pc + 1 } (wrapping_sub reg0 imm)
    | some (Inst.Branch target) =>
      tail_run insts fuel (handler.branch c target).1 reg0
    | some (Inst.BranchEqz target condition) =>
      tail_run insts fuel (handler.branch_eqz c target condition).1 reg0
    | some (Inst.BranchEqz0 target) =>
      tail_run insts fuel
        (if reg0 = 0 then { c with pc := target } else { c with pc := c.pc + 1 }) reg0
    | some (Inst.Return result) => some (handler.ret c result).1

end SwitchTail2

namespace ClosureTail2

/-- The closure-based instructions of `src/closure_tail_2.rs`,
defunctionalized by their construction sites: the closures are only ever
built by the constructor functions `add_imm`, `add_imm_0`, `sub_imm`,
`sub_imm_0`, `branch`, `branch_eqz`, `branch_eqz_0` and `ret`, so an
instruction is faithfully represented by which constructor built it and
its captured operands. -/
inductive Inst where
  | add_imm (result src imm : Nat)
  | add_imm_0 (imm : Nat)
  | sub_imm (result src imm : Nat)
  | sub_imm_0 (imm : Nat)
  | branch (target : Nat)
  | branch_eqz (target condition : Nat)
  | branch_eqz_0 (target : Nat)
  | ret (result : Nat)
deriving DecidableEq, Repr

/-- The threaded dispatch of `src/closure_tail_2.rs`
(`ExecContext::execute_next` invoking each stored closure), fuelled.
Each arm is the body of the corresponding closure; `ret` calls
`handler::ret`, ignoring the threaded register-0 value. -/
def run (insts : List Inst) : Nat → Context → Nat → Option Context
  | 0, _, _ => none
  | fuel + 1, c, reg0 =>
    match insts.get? c.pc with
    | none => none
    | some (Inst.add_imm result src imm) =>
      run insts fuel (handler.add_imm c result src imm).1 reg0
    | some (Inst.add_imm_0 imm) =>
      run insts fuel { c with pc := c.pc + 1 } (wrapping_add reg0 imm)
    | some (Inst.sub_imm result src imm) =>
      run insts fuel (handler.sub_imm c result src imm).1 reg0
    | some (Inst.sub_imm_0 imm) =>
      run insts fuel { c with pc := c.pc + 1 } (wrapping_sub reg0 imm)
    | some (Inst.branch target) =>
      run insts fuel (handler.branch c target).1 reg0
    | some (Inst.branch_eqz target condition) =>
      run insts fuel (handler.branch_eqz c target condition).1 reg0
    | some (Inst.branch_eqz_0 target) =>
      run insts fuel
        (if reg0 = 0 then { c with pc := target } else { c with pc := c.pc + 1 }) reg0
    | some (Inst.ret result) => some (handler.ret c result).1

end ClosureTail2

/-- Embed a `switch.rs` instruction into `switch_2.rs` (none of the
promoted forms are in the image). -/
def Switch.Inst.toSwitch2 : Switch.Inst → Switch2.Inst
  | Switch.Inst.Add result lhs rhs => Switch2.Inst.Add result lhs rhs
  | Switch.Inst.AddImm result src imm => Switch2.Inst.AddImm result src imm
  | Switch.Inst.Sub result lhs rhs => Switch2.Inst.Sub result lhs rhs
  | Switch.Inst.SubImm result src imm => Switch2.Inst.SubImm result src imm
  | Switch.Inst.Mul result lhs rhs => Switch2.Inst.Mul result lhs rhs
  | Switch.Inst.MulImm result src imm => Switch2.Inst.MulImm result src imm
  | Switch.Inst.Branch target => Switch2.Inst.Branch target
  | Switch.Inst.BranchEqz target condition => Switch2.Inst.BranchEqz target condition
  | Switch.Inst.Return result => Switch2.Inst.Return result

lemma Switch.Inst.toSwitch2_execute (i : Switch.Inst) (c : Context) (reg0 : Nat) :
    (i.toSwitch2).execute c reg0 = ((i.execute c).1, reg0, (i.execute c).2) := by
  cases i <;> rfl

lemma Switch2.run_map_eq_switch_run (prog : List Switch.Inst) (fuel : Nat)
    (c : Context) (reg0 : Nat) :
    Switch2.run (prog.map Switch.Inst.toSwitch2) fuel c reg0 = Switch.run prog fuel c := by
  induction fuel generalizing c reg0 with
  | zero => rfl
  | succ n ih =>
    simp only [Switch2.run, Switch.run, List.get?_map]
    cases hfetch : prog.get? c.pc with
    | none => rfl
    | some i =>
      show (match (i.toSwitch2).execute c reg0 with
            | (c1, r1, Outcome.Continue) => Switch2.run (prog.map Switch.Inst.toSwitch2) n c1 r1
            | (c1, _, Outcome.Return) => some c1)
          = (match i.execute c with
            | (c1, Outcome.Continue) => Switch.run prog n c1
            | (c1, Outcome.Return) => some c1)
      rw [Switch.Inst.toSwitch2_execute]
      cases hex : i.execute c with
      | mk c1 oc => cases oc <;> simp [ih]

/-- Is a `switch.rs` instruction the `Return` form? -/
def Switch.Inst.isRet : Switch.Inst → Bool
  | Switch.Inst.Return _ => true
  | _ => false

/-- Static control-flow successors of the instruction at `pc`:
arithmetic forms fall through, `Branch` goes to its target, `BranchEqz`
may go to its target or fall through, `Return` has none. -/
def Switch.Inst.succs : Switch.Inst → Nat → List Nat
  | Switch.Inst.Branch target, _ => [target]
  | Switch.Inst.BranchEqz target _, pc => [target, pc + 1]
  | Switch.Inst.Return _, _ => []
  | _, pc => [pc + 1]

/-- One static control-flow edge of a program. -/
def Switch.cfg_edge (insts : List Switch.Inst) (a b : Nat) : Prop :=
  ∃ i, insts.get? a = some i ∧ b ∈ i.succs a

/-- A `Return` instruction is statically reachable from pc 0. -/
def Switch.return_reachable (insts : List Switch.Inst) : Prop :=
  ∃ pcR r, insts.get? pcR = some (Switch.Inst.Return r) ∧
    Relation.ReflTransGen (Switch.cfg_edge insts) 0 pcR

/-- The tag-dispatch engine terminates on this program and start state
within some fuel. -/
def Switch.terminates (insts : List Switch.Inst) (c : Context) : Prop :=
  ∃ fuel c1, Switch.run insts fuel c = some c1

/-- A program whose single `Return` is statically reachable from pc 0
but which never terminates from the default state: register 1 is set to
1 and the `BranchEqz` loop on it never exits. -/
def cex_reachable_prog : List Switch.Inst :=
  [Switch.Inst.AddImm 1 1 1, Switch.Inst.BranchEqz 3 1,
   Switch.Inst.Branch 1, Switch.Inst.Return 0]

lemma cex_reachable_prog_loops (fuel : Nat) :
    ∀ c : Context, c.get_reg 1 = 1 → (c.pc = 1 ∨ c.pc = 2) →
      Switch.run cex_reachable_prog fuel c = none := by
  induction fuel with
  | zero => intro c _ _; rfl
  | succ n ih =>
    intro c hreg hpc
    rcases hpc with h1 | h2
    · have hfetch : cex_reachable_prog.get? c.pc = some (Switch.Inst.BranchEqz 3 1) := by
        rw [h1]; rfl
      simp only [Switch.run, hfetch, Switch.Inst.execute, handler.branch_eqz, hreg]
      simp only [one_ne_zero, if_false, Context.next_inst]
      exact ih _ hreg (Or.inr (by simp [Context.get_reg, h1]))
    · have hfetch : cex_reachable_prog.get? c.pc = some (Switch.Inst.Branch 1) := by
        rw [h2]; rfl
      simp only [Switch.run, hfetch, Switch.Inst.execute, handler.branch, Context.branch_to]
      exact ih _ hreg (Or.inl rfl)

lemma cex_reachable_prog_no_terminate (fuel : Nat) :
    Switch.run cex_reachable_prog fuel Context.default = none := by
  cases fuel with
  | zero => rfl
  | succ n =>
    have hfetch : cex_reachable_prog.get? Context.default.pc
        = some (Switch.Inst.AddImm 1 1 1) := rfl
    simp only [Switch.run, hfetch, Switch.Inst.execute, handler.add_imm, Context.next_inst]
    exact cex_reachable_prog_loops n _ (by decide) (Or.inl (by decide))

lemma Switch.run_ends_at_ret (insts : List Switch.Inst) (fuel : Nat) :
    ∀ c c1, Switch.run insts fuel c = some c1 →
      ∃ c0 r, insts.get? c0.pc = some (Switch.Inst.Return r) ∧ c1 = (handler.ret c0 r).1 := by
  induction fuel with
  | zero => intro c c1 h; exact absurd h (by simp [Switch.run])
  | succ n ih =>
    intro c c1 h
    simp only [Switch.run] at h
    cases hfetch : insts.get? c.pc with
    | none => rw [hfetch] at h; exact absurd h (by simp)
    | some i =>
      rw [hfetch] at h
      replace h : (match i.execute c with
          | (c2, Outcome.Continue) => Switch.run insts n c2
          | (c2, Outcome.Return) => some c2) = some c1 := h
      cases hex : i.execute c with
      | mk c2 oc =>
        rw [hex] at h
        cases oc with
        | Continue => exact ih c2 c1 h
        | Return =>
          simp only [Option.some.injEq] at h
          subst h
          by_cases hret : ∃ r, i = Switch.Inst.Return r
          · obtain ⟨r, rfl⟩ := hret
            refine ⟨c, r, hfetch, ?_⟩
            have hfst := congrArg Prod.fst hex
            simpa [Switch.Inst.execute] using hfst.symm
          · push_neg at hret
            have hco := Switch.Inst.execute_continue_of_ne_ret i c hret
            rw [hex] at hco
            exact absurd hco (by simp)

/-- The concrete counting-loop scenario of the spec: add 5 into r0, loop
decrementing it to 0, return r0. -/
def counter_loop_prog : List Switch.Inst :=
  [Switch.Inst.AddImm 0 0 5, Switch.Inst.BranchEqz 4 0,
   Switch.Inst.SubImm 0 0 1, Switch.Inst.Branch 1, Switch.Inst.Return 0]

/-- C1: for every program built from the instruction forms shared by all
three dispatch engines (the closure engine of `closure_loop.rs`
constructs exactly `add_imm`, `sub_imm`, `branch`, `branch_eqz`, `ret`),
and for every initial state and fuel bound, the closure-based engine and
the threaded (tail-call) engine produce exactly the same result as the
tag-dispatch engine: the same final `Context` (identical registers and
pc, hence the identical returned value in register 0) whenever any of
them completes, and non-completion in exactly the same cases. -/
theorem C1_dispatch_equivalence (prog : List CommonInst) (fuel : Nat) (ctx : Context) :
    ClosureLoop.run (prog.map CommonInst.toClosure) fuel ctx
        = Switch.run (prog.map CommonInst.toSwitch) fuel ctx
    ∧ SwitchTail.tail_run (prog.map CommonInst.toSwitch) fuel ctx
        = Switch.run (prog.map CommonInst.toSwitch) fuel ctx :=
  ⟨closure_run_eq_switch_run prog fuel ctx,
   tail_run_eq_switch_run (prog.map CommonInst.toSwitch) fuel ctx⟩

/-- C5: the claim states that all four bounds assertions pass on every
in-range index and catch precisely the out-of-range ones.  The code
contradicts this for `fused::Context::get_global`
(`src/fused/mod.rs` line 62): its `debug_assert!` condition is
`global > self.globals.len()` (inverted), so it is `false` on every
in-range index (debug builds panic on any valid global read) while the
three sibling assertions use `<` and behave as claimed; the unchecked
reads/writes themselves do address exactly the addressed slot. -/
theorem C5_get_global_assert_inverted :
    (Fused.Context.default.set_reg_assert 3 = true)
    ∧ (Fused.Context.default.get_reg_assert 3 = true)
    ∧ (Fused.Context.default.set_global_assert 3 = true)
    ∧ (Fused.Context.default.get_global_assert 0 = false)
    ∧ (Fused.Context.default.get_global_assert 15 = false)
    ∧ (∀ g : Nat, Fused.Context.default.get_global_assert g = true ↔ g > 16)
    ∧ ((Fused.Context.default.set_global 3 7).get_global 3 = 7)
    ∧ ((Fused.Context.default.set_reg 3 7).get_reg 3 = 7) := by
  refine ⟨rfl, rfl, rfl, rfl, rfl, ?_, by decide, by decide⟩
  intro g
  simp [Fused.Context.get_global_assert, Fused.Context.default]

/-- C6: `BranchIfZero(target, cond)` sets the pc to `target` exactly when
the loaded condition is 0 and to `pc + 1` otherwise, with outcome
`Continue` and no change to any register or global (the final state is a
pure pc update of the input state), both for the `lib.rs` handler
(register condition) and the dynamic `fused::rt` form (arbitrary
`Source` condition). -/
theorem C6_branch_eqz_correct :
    (∀ (c : Context) (target condition : Nat),
      handler.branch_eqz c target condition
        = ({ c with pc := if c.get_reg condition = 0 then target else c.pc + 1 },
           Outcome.Continue))
    ∧ (∀ (c : Fused.Context) (target : Nat) (cond : Rt.Source),
      Rt.BranchEqzInst.execute ⟨target, cond⟩ c
        = ({ c with pc := if cond.load c = 0 then target else c.pc + 1 },
           Outcome.Continue)) := by
  constructor
  · intro c target condition
    simp only [handler.branch_eqz, Context.branch_to, Context.next_inst]
    split <;> simp_all
  · intro c target cond
    simp only [Rt.BranchEqzInst.execute, Fused.Context.branch_to, Fused.Context.next_inst]
    split <;> simp_all

/-- C7: `Return(result)` stores the loaded result value into register 0
and yields the `Return` outcome (dynamic `fused::rt` form), and on the
tag-dispatch engine a `Return` at the current pc terminates the run with
final state `set_reg 0 (get_reg result)`, whose register 0 then holds
exactly the returned value. -/
theorem C7_return_correct :
    (∀ (c : Fused.Context) (r : Rt.Source),
      Rt.ReturnInst.execute ⟨r⟩ c = (c.set_reg 0 (r.load c), Outcome.Return))
    ∧ (∀ (insts : List Switch.Inst) (fuel : Nat) (c : Context) (r : Nat),
      insts.get? c.pc = some (Switch.Inst.Return r) →
        Switch.run insts (fuel + 1) c = some (c.set_reg 0 (c.get_reg r))
        ∧ (c.set_reg 0 (c.get_reg r)).get_reg 0 = c.get_reg r) := by
  constructor
  · intro c r; rfl
  · intro insts fuel c r h
    constructor
    · simp only [Switch.run, h, Switch.Inst.execute, handler.ret]
    · rcases c with ⟨pc, regs⟩
      cases regs with
      | nil => simp [Context.set_reg, Context.get_reg]
      | cons a t => simp [Context.set_reg, Context.get_reg]

theorem C7_return_correct_witness :
    Switch.run [Switch.Inst.Return 2] 1 Context.default
        = some (Context.default.set_reg 0 (Context.default.get_reg 2))
    ∧ (Context.default.set_reg 0 (Context.default.get_reg 2)).get_reg 0
        = Context.default.get_reg 2 :=
  C7_return_correct.2 [Switch.Inst.Return 2] 0 Context.default 2 rfl

/-- C8: the `Add`/`Sub`/`Mul` handlers and the dynamic `fused::rt`
adder compute their result reduced modulo `2^64` (total functions: no
overflow signalling exists), and concretely `wrapping_add (2^64-1) 1 = 0`,
`wrapping_sub 0 1 = 2^64-1`, `wrapping_mul 2^63 2 = 0`. -/
theorem C8_arithmetic_wraparound :
    (∀ (c : Context) (res lhs rhs : Nat),
      (handler.add c res lhs rhs).1.regs
        = c.regs.set res ((c.get_reg lhs + c.get_reg rhs) % 2 ^ 64))
    ∧ (∀ (c : Context) (res lhs rhs : Nat),
      (handler.sub c res lhs rhs).1.regs
        = c.regs.set res ((c.get_reg lhs + (2 ^ 64 - c.get_reg rhs % 2 ^ 64)) % 2 ^ 64))
    ∧ (∀ (c : Context) (res lhs rhs : Nat),
      (handler.mul c res lhs rhs).1.regs
        = c.regs.set res ((c.get_reg lhs * c.get_reg rhs) % 2 ^ 64))
    ∧ (∀ (c : Fused.Context) (sink : Rt.Sink) (l r : Rt.Source),
      Rt.AddInst.execute ⟨sink, l, r⟩ c
        = (sink.store c ((l.load c + r.load c) % 2 ^ 64)).next_inst)
    ∧ wrapping_add (2 ^ 64 - 1) 1 = 0
    ∧ wrapping_sub 0 1 = 2 ^ 64 - 1
    ∧ wrapping_mul (2 ^ 63) 2 = 0 :=
  ⟨fun _ _ _ _ => rfl, fun _ _ _ _ => rfl, fun _ _ _ _ => rfl,
   fun _ _ _ _ => rfl, by norm_num [wrapping_add], by norm_num [wrapping_sub],
   by norm_num [wrapping_mul]⟩

/-- C2 counterexample: not every dynamic program can be specialized: the
fuse pass has no output for a `Mul` dynamic instruction (the `ct2.rs`
compile match has no `Mul`/`Eq`/`Ne` arms), so "executing
`specialize(P)`" is undefined for such a `P`, refuting the claim's
universal quantification over all dynamic programs. -/
theorem C2_specialize_mul_has_no_output :
    Ct2.compile (Rt.Inst.Mul ⟨Rt.Sink.Register 0, Rt.Source.Register 0, Rt.Source.Register 1⟩)
      = none
    ∧ Ct2.compile_program
        [Rt.Inst.Mul ⟨Rt.Sink.Register 0, Rt.Source.Register 0, Rt.Source.Register 1⟩,
         Rt.Inst.Return ⟨Rt.Source.Register 0⟩] = none :=
  ⟨rfl, rfl⟩

/-- C2 amended: for every dynamic program that the specializer accepts
(every instruction uses the handled opcodes `Add`, `Sub`, `Branch`,
`BranchEqz`, `Return`, over any combination of Register/Global/Const
operand kinds), executing the program directly with generic
`Source`/`Sink` resolution and executing the compiled specialized
program yield identical results from every start state and fuel bound. -/
theorem C2_specialization_transparency (P : List Rt.Inst) (SP : List Ct2.Inst)
    (h : Ct2.compile_program P = some SP) (fuel : Nat) (c : Fused.Context) :
    Ct2.run SP fuel c = Rt.run P fuel c :=
  Ct2.run_eq_rt_run P SP h fuel c

/-- The dynamic counting-loop program of the `ct2.rs` test (with 3
repetitions), mixing Register and Const operand kinds. -/
def c2_dyn_prog : List Rt.Inst :=
  [Rt.Inst.Add ⟨Rt.Sink.Register 0, Rt.Source.Register 0, Rt.Source.Const 3⟩,
   Rt.Inst.BranchEqz ⟨4, Rt.Source.Register 0⟩,
   Rt.Inst.Sub ⟨Rt.Sink.Register 0, Rt.Source.Register 0, Rt.Source.Const 1⟩,
   Rt.Inst.Branch ⟨1⟩,
   Rt.Inst.Return ⟨Rt.Source.Register 0⟩]

/-- The specialized form of `c2_dyn_prog` produced by the fuse pass. -/
def c2_spec_prog : List Ct2.Inst :=
  [Ct2.Inst.AddRrc 0 0 3, Ct2.Inst.BranchEqzR 4 0, Ct2.Inst.SubRrc 0 0 1,
   Ct2.Inst.Branch 1, Ct2.Inst.ReturnR 0]

theorem C2_specialization_transparency_witness :
    Ct2.compile_program c2_dyn_prog = some c2_spec_prog
    ∧ Ct2.run c2_spec_prog 30 Fused.Context.default
        = Rt.run c2_dyn_prog 30 Fused.Context.default :=
  ⟨by decide,
   C2_specialization_transparency c2_dyn_prog c2_spec_prog (by decide) 30
     Fused.Context.default⟩

/-- C3 counterexample: the `ct3.rs` specializer does not enumerate every
opcode: its outer match ends in a wildcard `_ => todo!()` arm, reached
by every `Mul`, `Eq` and `Ne` dynamic instruction (modelled as `none`),
so a wildcard/panic is reachable, refuting the claim. -/
theorem C3_ct3_wildcard_reached :
    Ct3.compile (Rt2.Inst.Mul ⟨0, Rt2.Source.Register 0, Rt2.Source.Register 1⟩) = none
    ∧ Ct3.compile (Rt2.Inst.Eq ⟨0, Rt2.Source.Register 0, Rt2.Source.Register 1⟩) = none
    ∧ Ct3.compile (Rt2.Inst.Ne ⟨0, Rt2.Source.Register 0, Rt2.Source.Register 1⟩) = none :=
  ⟨rfl, rfl, rfl⟩

/-- C3 amended: the specializers enumerate every operand-kind
combination of the opcodes they handle — `compile` succeeds exactly on
`Add`, `Sub`, `Branch`, `BranchEqz`, `Return` (every Register/Global/
Const combination in `ct2.rs`, every Register/Const combination in
`ct3.rs`), each mapped to its dedicated specialized variant — while
`Mul`, `Eq` and `Ne` have no specialized variant: they fall into
`ct3.rs`'s explicit `todo!()` wildcard (a loud panic, per the spec's §7
failure rule) and have no compile arm at all in `ct2.rs`. -/
theorem C3_specializer_coverage :
    (∀ d : Rt.Inst, (Ct2.compile d).isSome = d.handled)
    ∧ (∀ d : Rt2.Inst, (Ct3.compile d).isSome = d.handled) := by
  constructor
  · intro d
    cases d with
    | Add i =>
      obtain ⟨res, l, r⟩ := i
      cases res <;> cases l <;> cases r <;> rfl
    | Sub i =>
      obtain ⟨res, l, r⟩ := i
      cases res <;> cases l <;> cases r <;> rfl
    | Mul i => rfl
    | Eq i => rfl
    | Ne i => rfl
    | Branch i => obtain ⟨t⟩ := i; rfl
    | BranchEqz i =>
      obtain ⟨t, cond⟩ := i
      cases cond <;> rfl
    | Return i =>
      obtain ⟨res⟩ := i
      cases res <;> rfl
  · intro d
    cases d with
    | Add i =>
      obtain ⟨res, l, r⟩ := i
      cases l <;> cases r <;> rfl
    | Sub i =>
      obtain ⟨res, l, r⟩ := i
      cases l <;> cases r <;> rfl
    | Mul i => rfl
    | Eq i => rfl
    | Ne i => rfl
    | Branch i => obtain ⟨t⟩ := i; rfl
    | BranchEqz i =>
      obtain ⟨t, cond⟩ := i
      cases cond <;> rfl
    | Return i =>
      obtain ⟨res⟩ := i
      cases res <;> rfl

/-- A two-instruction program in the promoted forms: add 5 to the
threaded register 0, then return register 0. -/
def c4_promoted_prog : List Switch2.Inst :=
  [Switch2.Inst.AddImm0 5, Switch2.Inst.Return 0]

/-- The baseline tag-dispatch equivalent of `c4_promoted_prog`. -/
def c4_baseline_prog : List Switch.Inst :=
  [Switch.Inst.AddImm 0 0 5, Switch.Inst.Return 0]

/-- C4 counterexample: the claim that every instruction operating on
register 0 — including `Return` — uses the threaded value is false:
`switch_2.rs`'s `Return` arm calls `handler::ret`, which reads the
register array slot.  On `[AddImm0 5, Return 0]` (threaded engine,
threaded value starts at 0 as in the source's `execute`) the final
register 0 is 0, while the baseline tag-dispatch engine on the
equivalent `[AddImm r0 r0 5, Return r0]` ends with register 0 = 5: the
two representations diverge observably. -/
theorem C4_threaded_reg0_diverges :
    ((Switch2.run c4_promoted_prog 2 Context.default 0).map (fun c => c.get_reg 0)
      = some 0)
    ∧ ((Switch.run c4_baseline_prog 2 Context.default).map (fun c => c.get_reg 0)
      = some 5)
    ∧ Switch2.run c4_promoted_prog 2 Context.default 0
        ≠ Switch.run c4_baseline_prog 2 Context.default := by
  refine ⟨by decide, by decide, by decide⟩

/-- The counting-loop program in `switch_2.rs`'s promoted forms. -/
def c4_loop_switch2 : List Switch2.Inst :=
  [Switch2.Inst.AddImm0 5, Switch2.Inst.BranchEqz0 4, Switch2.Inst.SubImm0 1,
   Switch2.Inst.Branch 1, Switch2.Inst.Return 0]

/-- The counting-loop program in `switch_tail_2.rs`'s forms. -/
def c4_loop_tail2 : List SwitchTail2.Inst :=
  [SwitchTail2.Inst.AddImm0 5, SwitchTail2.Inst.BranchEqz0 4,
   SwitchTail2.Inst.SubImm0 1, SwitchTail2.Inst.Branch 1,
   SwitchTail2.Inst.Return 0]

/-- The counting-loop program in `closure_tail_2.rs`'s forms. -/
def c4_loop_closure2 : List ClosureTail2.Inst :=
  [ClosureTail2.Inst.add_imm_0 5, ClosureTail2.Inst.branch_eqz_0 4,
   ClosureTail2.Inst.sub_imm_0 1, ClosureTail2.Inst.branch 1,
   ClosureTail2.Inst.ret 0]

/-- Embed a common instruction into `switch_tail_2.rs` (the engine's
non-promoted forms are exactly the five common ones). -/
def CommonInst.toTail2 : CommonInst → SwitchTail2.Inst
  | CommonInst.add_imm result src imm => SwitchTail2.Inst.AddImm result src imm
  | CommonInst.sub_imm result src imm => SwitchTail2.Inst.SubImm result src imm
  | CommonInst.branch target => SwitchTail2.Inst.Branch target
  | CommonInst.branch_eqz target condition => SwitchTail2.Inst.BranchEqz target condition
  | CommonInst.ret result => SwitchTail2.Inst.Return result

/-- Embed a common instruction into `closure_tail_2.rs` (likewise its
non-promoted constructor functions are exactly the five common ones). -/
def CommonInst.toClosureTail2 : CommonInst → ClosureTail2.Inst
  | CommonInst.add_imm result src imm => ClosureTail2.Inst.add_imm result src imm
  | CommonInst.sub_imm result src imm => ClosureTail2.Inst.sub_imm result src imm
  | CommonInst.branch target => ClosureTail2.Inst.branch target
  | CommonInst.branch_eqz target condition => ClosureTail2.Inst.branch_eqz target condition
  | CommonInst.ret result => ClosureTail2.Inst.ret result

lemma tail2_run_eq_switch_run (prog : List CommonInst) (fuel : Nat) :
    ∀ (c : Context) (reg0 : Nat),
      SwitchTail2.tail_run (prog.map CommonInst.toTail2) fuel c reg0
        = Switch.run (prog.map CommonInst.toSwitch) fuel c := by
  induction fuel with
  | zero => intro c reg0; rfl
  | succ n ih =>
    intro c reg0
    simp only [SwitchTail2.tail_run, Switch.run, List.get?_map]
    cases hfetch : prog.get? c.pc with
    | none => rfl
    | some i =>
      cases i with
      | add_imm result src imm => exact ih _ reg0
      | sub_imm result src imm => exact ih _ reg0
      | branch target => exact ih _ reg0
      | branch_eqz target condition =>
        show SwitchTail2.tail_run (prog.map CommonInst.toTail2) n
              (handler.branch_eqz c target condition).1 reg0
            = (match handler.branch_eqz c target condition with
               | (c1, Outcome.Continue) =>
                 Switch.run (prog.map CommonInst.toSwitch) n c1
               | (c1, Outcome.Return) => some c1)
        by_cases hcond : c.get_reg condition = 0 <;>
          simp only [handler.branch_eqz, hcond, if_true, if_false,
            Context.branch_to, Context.next_inst] <;>
          exact ih _ reg0
      | ret result => rfl

lemma closure_tail2_run_eq_switch_run (prog : List CommonInst) (fuel : Nat) :
    ∀ (c : Context) (reg0 : Nat),
      ClosureTail2.run (prog.map CommonInst.toClosureTail2) fuel c reg0
        = Switch.run (prog.map CommonInst.toSwitch) fuel c := by
  induction fuel with
  | zero => intro c reg0; rfl
  | succ n ih =>
    intro c reg0
    simp only [ClosureTail2.run, Switch.run, List.get?_map]
    cases hfetch : prog.get? c.pc with
    | none => rfl
    | some i =>
      cases i with
      | add_imm result src imm => exact ih _ reg0
      | sub_imm result src imm => exact ih _ reg0
      | branch target => exact ih _ reg0
      | branch_eqz target condition =>
        show ClosureTail2.run (prog.map CommonInst.toClosureTail2) n
              (handler.branch_eqz c target condition).1 reg0
            = (match handler.branch_eqz c target condition with
               | (c1, Outcome.Continue) =>
                 Switch.run (prog.map CommonInst.toSwitch) n c1
               | (c1, Outcome.Return) => some c1)
        by_cases hcond : c.get_reg condition = 0 <;>
          simp only [handler.branch_eqz, hcond, if_true, if_false,
            Context.branch_to, Context.next_inst] <;>
          exact ih _ reg0
      | ret result => rfl

/-- C4 amended: in the promoted engines the promoted forms (`AddImm0`,
`SubImm0`, `BranchEqz0`) read and write only the threaded value and the
pc, leaving the register array untouched, while `Return` ignores the
threaded value and reads the register array via `handler::ret`; hence
the promoted engines agree with the baseline tag-dispatch engine on
every program that avoids the promoted forms, for any threaded value —
`switch_2.rs` on every `switch.rs` program, `switch_tail_2.rs` and
`closure_tail_2.rs` on every program over their non-promoted (common)
forms — and on the counting-loop programs — where the threaded value is
0 at the `Return` and the untouched array slot also reads 0 — all three
promoted engines return the baseline's value 0, but not on programs
whose threaded value is nonzero at `Return` (see the counterexample). -/
theorem C4_threaded_reg0_amended :
    (∀ (c : Context) (reg0 imm : Nat),
      (Switch2.Inst.AddImm0 imm).execute c reg0
        = ({ c with pc := c.pc + 1 }, wrapping_add reg0 imm, Outcome.Continue))
    ∧ (∀ (c : Context) (reg0 imm : Nat),
      (Switch2.Inst.SubImm0 imm).execute c reg0
        = ({ c with pc := c.pc + 1 }, wrapping_sub reg0 imm, Outcome.Continue))
    ∧ (∀ (c : Context) (reg0 target : Nat),
      (Switch2.Inst.BranchEqz0 target).execute c reg0
        = ({ c with pc := if reg0 = 0 then target else c.pc + 1 }, reg0,
           Outcome.Continue))
    ∧ (∀ (c : Context) (reg0 r : Nat),
      (Switch2.Inst.Return r).execute c reg0
        = ((handler.ret c r).1, reg0, Outcome.Return))
    ∧ (∀ (prog : List Switch.Inst) (fuel : Nat) (c : Context) (reg0 : Nat),
      Switch2.run (prog.map Switch.Inst.toSwitch2) fuel c reg0
        = Switch.run prog fuel c)
    ∧ (∀ (prog : List CommonInst) (fuel : Nat) (c : Context) (reg0 : Nat),
      SwitchTail2.tail_run (prog.map CommonInst.toTail2) fuel c reg0
        = Switch.run (prog.map CommonInst.toSwitch) fuel c)
    ∧ (∀ (prog : List CommonInst) (fuel : Nat) (c : Context) (reg0 : Nat),
      ClosureTail2.run (prog.map CommonInst.toClosureTail2) fuel c reg0
        = Switch.run (prog.map CommonInst.toSwitch) fuel c)
    ∧ ((Switch2.run c4_loop_switch2 30 Context.default 0).map (fun c => c.get_reg 0)
        = (Switch.run counter_loop_prog 30 Context.default).map (fun c => c.get_reg 0))
    ∧ ((SwitchTail2.tail_run c4_loop_tail2 30 Context.default 0).map
          (fun c => c.get_reg 0)
        = (Switch.run counter_loop_prog 30 Context.default).map (fun c => c.get_reg 0))
    ∧ ((ClosureTail2.run c4_loop_closure2 30 Context.default 0).map
          (fun c => c.get_reg 0)
        = (Switch.run counter_loop_prog 30 Context.default).map
            (fun c => c.get_reg 0)) := by
  refine ⟨fun c reg0 imm => rfl, fun c reg0 imm => rfl, ?_, fun c reg0 r => rfl,
    Switch2.run_map_eq_switch_run,
    fun prog fuel c reg0 => tail2_run_eq_switch_run prog fuel c reg0,
    fun prog fuel c reg0 => closure_tail2_run_eq_switch_run prog fuel c reg0,
    by decide, by decide, by decide⟩
  intro c reg0 target
  simp only [Switch2.Inst.execute, Context.branch_to, Context.next_inst]
  split <;> simp_all

/-- C9 counterexample: a program with exactly one `Return` instruction
that is statically reachable from pc 0 (`[AddImm r1 r1 1, BranchEqz 3 r1,
Branch 1, Return r0]`, whose `BranchEqz` edge reaches the `Return` at
index 3) yet never terminates from the default all-zero state: register
1 is set to 1 and the `BranchEqz` loop never exits, so the claimed
"every such program terminates" is false. -/
theorem C9_reachable_return_nonterminating :
    (cex_reachable_prog.countP (fun i => i.isRet) = 1)
    ∧ Switch.return_reachable cex_reachable_prog
    ∧ ¬ Switch.terminates cex_reachable_prog Context.default := by
  refine ⟨by decide, ?_, ?_⟩
  · refine ⟨3, 0, rfl, ?_⟩
    have e01 : Switch.cfg_edge cex_reachable_prog 0 1 :=
      ⟨Switch.Inst.AddImm 1 1 1, rfl, by decide⟩
    have e13 : Switch.cfg_edge cex_reachable_prog 1 3 :=
      ⟨Switch.Inst.BranchEqz 3 1, rfl, by decide⟩
    exact (Relation.ReflTransGen.single e01).tail e13
  · rintro ⟨fuel, c1, h⟩
    rw [cex_reachable_prog_no_terminate fuel] at h
    exact Option.noConfusion h

/-- C9 amended: static reachability of the single `Return` does not by
itself give termination (see the counterexample); what holds is: any
terminating run of the tag-dispatch engine terminates by executing a
`Return` instruction of the program, and the final state is exactly
`handler::ret` of the state before it (register 0 := the declared result
register's value); moreover the spec's concrete counting-loop program
does terminate from the default state with register 0 = 0. -/
theorem C9_termination_amended :
    (∀ (insts : List Switch.Inst) (fuel : Nat) (c c1 : Context),
      Switch.run insts fuel c = some c1 →
        ∃ c0 r, insts.get? c0.pc = some (Switch.Inst.Return r)
          ∧ c1 = (handler.ret c0 r).1)
    ∧ ((Switch.run counter_loop_prog 30 Context.default).map (fun c => c.get_reg 0)
        = some 0)
    ∧ Switch.terminates counter_loop_prog Context.default := by
  refine ⟨fun insts fuel c c1 h => Switch.run_ends_at_ret insts fuel c c1 h,
    by decide, ?_⟩
  have h : (Switch.run counter_loop_prog 30 Context.default).isSome = true := by decide
  obtain ⟨c1, hc1⟩ := Option.isSome_iff_exists.mp h
  exact ⟨30, c1, hc1⟩

theorem C9_termination_amended_witness :
    ∃ c0 r, ([Switch.Inst.Return 1] : List Switch.Inst).get? c0.pc
        = some (Switch.Inst.Return r)
      ∧ (handler.ret Context.default 1).1 = (handler.ret c0 r).1 :=
  C9_termination_amended.1 [Switch.Inst.Return 1] 1 Context.default
    ((handler.ret Context.default 1).1) rfl

lemma Switch.Inst.execute_preserves_reg_count (i : Switch.Inst) (c : Context) :
    ((i.execute c).1).regs.length = c.regs.length := by
  cases i <;>
    simp only [Switch.Inst.execute, handler.add, handler.add_imm, handler.sub,
      handler.sub_imm, handler.mul, handler.mul_imm, handler.branch,
      handler.branch_eqz, handler.ret, Context.set_reg, Context.next_inst,
      Context.branch_to] <;>
    first
      | simp [List.length_set]
      | (split <;> simp [List.length_set])

lemma Switch2.Inst.execute_preserves_reg_count_2 (i : Switch2.Inst) (c : Context)
    (reg0 : Nat) : ((i.execute c reg0).1).regs.length = c.regs.length := by
  cases i <;>
    simp only [Switch2.Inst.execute, handler.add, handler.add_imm, handler.sub,
      handler.sub_imm, handler.mul, handler.mul_imm, handler.branch,
      handler.branch_eqz, handler.ret, Context.set_reg, Context.next_inst,
      Context.branch_to] <;>
    first
      | simp [List.length_set]
      | (split <;> simp [List.length_set])

lemma Rt.Inst.execute_preserves_store_sizes (d : Rt.Inst) (c : Fused.Context) :
    ((d.execute c).1).regs.length = c.regs.length
    ∧ ((d.execute c).1).globals.length = c.globals.length := by
  cases d with
  | Add i =>
    obtain ⟨res, l, r⟩ := i
    cases res <;>
      simp [Rt.Inst.execute, Rt.AddInst.execute, Rt.Sink.store, Fused.Context.set_reg,
        Fused.Context.set_global, Fused.Context.next_inst, List.length_set]
  | Sub i =>
    obtain ⟨res, l, r⟩ := i
    cases res <;>
      simp [Rt.Inst.execute, Rt.SubInst.execute, Rt.Sink.store, Fused.Context.set_reg,
        Fused.Context.set_global, Fused.Context.next_inst, List.length_set]
  | Mul i =>
    obtain ⟨res, l, r⟩ := i
    cases res <;>
      simp [Rt.Inst.execute, Rt.MulInst.execute, Rt.Sink.store, Fused.Context.set_reg,
        Fused.Context.set_global, Fused.Context.next_inst, List.length_set]
  | Eq i =>
    obtain ⟨res, l, r⟩ := i
    cases res <;>
      simp [Rt.Inst.execute, Rt.EqInst.execute, Rt.Sink.store, Fused.Context.set_reg,
        Fused.Context.set_global, Fused.Context.next_inst, List.length_set]
  | Ne i =>
    obtain ⟨res, l, r⟩ := i
    cases res <;>
      simp [Rt.Inst.execute, Rt.NeInst.execute, Rt.Sink.store, Fused.Context.set_reg,
        Fused.Context.set_global, Fused.Context.next_inst, List.length_set]
  | Branch i =>
    simp [Rt.Inst.execute, Rt.BranchInst.execute, Fused.Context.branch_to]
  | BranchEqz i =>
    simp only [Rt.Inst.execute, Rt.BranchEqzInst.execute, Fused.Context.branch_to,
      Fused.Context.next_inst]
    split <;> simp
  | Return i =>
    simp [Rt.Inst.execute, Rt.ReturnInst.execute, Fused.Context.set_reg,
      List.length_set]

lemma Ct2.Inst.execute_preserves_store_sizes_ct2 (s : Ct2.Inst) (c : Fused.Context) :
    ((s.execute c).1).regs.length = c.regs.length
    ∧ ((s.execute c).1).globals.length = c.globals.length := by
  cases s <;>
    simp only [Ct2.Inst.execute, Fused.Context.set_reg, Fused.Context.set_global,
      Fused.Context.next_inst, Fused.Context.branch_to] <;>
    first
      | simp [List.length_set]
      | (split <;> simp [List.length_set])

lemma Switch.run_preserves_length (insts : List Switch.Inst) (fuel : Nat) :
    ∀ c c1, Switch.run insts fuel c = some c1 → c1.regs.length = c.regs.length := by
  induction fuel with
  | zero => intro c c1 h; exact absurd h (by simp [Switch.run])
  | succ n ih =>
    intro c c1 h
    simp only [Switch.run] at h
    cases hfetch : insts.get? c.pc with
    | none => rw [hfetch] at h; exact absurd h (by simp)
    | some i =>
      rw [hfetch] at h
      replace h : (match i.execute c with
          | (c2, Outcome.Continue) => Switch.run insts n c2
          | (c2, Outcome.Return) => some c2) = some c1 := h
      have hlen := Switch.Inst.execute_preserves_reg_count i c
      cases hex : i.execute c with
      | mk c2 oc =>
        rw [hex] at h hlen
        cases oc with
        | Continue => exact (ih c2 c1 h).trans hlen
        | Return =>
          simp only [Option.some.injEq] at h
          subst h
          exact hlen

/-- C10: every register/global access and every instruction execution,
on the tag-dispatch engine, the promoted `switch_2.rs` engine, the
dynamic `fused::rt` engine and the specialized `fused::ct2` engine,
preserves the lengths of the register and global arrays; whole runs of
the tag-dispatch engine preserve the register-file length; and both
default states start with exactly 16 registers (and 16 globals), so an
index valid at construction time stays valid for the entire run. -/
theorem C10_state_lengths_invariant :
    (∀ (i : Switch.Inst) (c : Context),
      ((i.execute c).1).regs.length = c.regs.length)
    ∧ (∀ (i : Switch2.Inst) (c : Context) (reg0 : Nat),
      ((i.execute c reg0).1).regs.length = c.regs.length)
    ∧ (∀ (d : Rt.Inst) (c : Fused.Context),
      ((d.execute c).1).regs.length = c.regs.length
      ∧ ((d.execute c).1).globals.length = c.globals.length)
    ∧ (∀ (s : Ct2.Inst) (c : Fused.Context),
      ((s.execute c).1).regs.length = c.regs.length
      ∧ ((s.execute c).1).globals.length = c.globals.length)
    ∧ (∀ (insts : List Switch.Inst) (fuel : Nat) (c c1 : Context),
      Switch.run insts fuel c = some c1 → c1.regs.length = c.regs.length)
    ∧ Context.default.regs.length = 16
    ∧ Fused.Context.default.regs.length = 16
    ∧ Fused.Context.default.globals.length = 16 :=
  ⟨Switch.Inst.execute_preserves_reg_count, Switch2.Inst.execute_preserves_reg_count_2,
   Rt.Inst.execute_preserves_store_sizes, Ct2.Inst.execute_preserves_store_sizes_ct2,
   fun insts fuel => Switch.run_preserves_length insts fuel, by decide, by decide,
   by decide⟩

theorem C10_state_lengths_invariant_witness :
    ((handler.ret Context.default 0).1).regs.length = Context.default.regs.length :=
  C10_state_lengths_invariant.2.2.2.2.1 [Switch.Inst.Return 0] 1 Context.default
    ((handler.ret Context.default 0).1) rfl
